import Mathlib

/-!
Shallow embedding of pytest-gitbark (src/pytest_gitbark/util.py and
src/pytest_gitbark/plugin.py).

The repository drives an external git binary and the filesystem; git and
the filesystem are modelled explicitly.  Python exceptions are modelled by
an `Exc` value threaded next to the mutated state: an operation that may
raise returns `State × Option Exc`, where the returned state is the state
at the moment the operation finished or raised (Python mutates the real
repository in place, so a raising action still leaves its partial effects).
-/

namespace PytestGitbark

/-- Python exception values relevant to this code base.
`cmdFailure` is the CalledProcessError raised by the gitbark cmd wrapper
on a non-zero exit with check enabled; `generic msg` is a plain
`raise Exception(msg)`; `assertFailed` is AssertionError; `pytestFailed`
is the Failed error that pytest.raises emits when the block did not raise;
`systemExit` is SystemExit, which is a BaseException but not an Exception
(so pytest.raises(Exception) does not catch it); `typeError` models
raising a non-exception object; `other n` is any other exception. -/
inductive Exc where
  | cmdFailure : Exc
  | generic : String → Exc
  | assertFailed : Exc
  | pytestFailed : Exc
  | systemExit : Exc
  | typeError : Exc
  | cliFail : Exc
  | other : Nat → Exc
deriving DecidableEq

/-- Whether the value is an instance of the Python class Exception
(everything here except SystemExit, which only derives BaseException). -/
def Exc.isException : Exc → Bool
  | .systemExit => false
  | _ => true

/-! ### Association lists: the model of string-keyed finite maps
(git refs, directory trees, the staging index). -/

/-- Lookup in an association list (first binding wins). -/
def alookup {α : Type} : List (String × α) → String → Option α
  | [], _ => none
  | (k, v) :: t, x => if k = x then some v else alookup t x

/-- Set a key to a value, dropping any previous binding of the key. -/
def aset {α : Type} (l : List (String × α)) (k : String) (v : α) :
    List (String × α) :=
  (k, v) :: l.filter (fun p => p.1 ≠ k)

/-- Delete every binding of a key. -/
def aerase {α : Type} (l : List (String × α)) (k : String) :
    List (String × α) :=
  l.filter (fun p => p.1 ≠ k)

/-! ### Git repository state

The git binary is an external collaborator; its commands are modelled by
their documented semantics on an abstract repository state.  `refs` maps
born branch names to the commit id their head points to; a branch that
has been checked out with the orphan flag but has no commit yet is unborn
and has no entry in `refs`.  `active` is the symbolic ref HEAD points to
(git symbolic-ref succeeds even on an unborn branch).  `workdir` and
`index` map file paths to contents.  `nextId` supplies fresh commit ids. -/
structure GitState where
  path : String
  refs : List (String × Nat)
  active : String
  workdir : List (String × String)
  index : List (String × String)
  nextId : Nat
deriving DecidableEq

/-- A Python action `Callable[[Repo], None]` that mutates the repository
and may raise: it returns the state it leaves behind together with the
exception it raised, if any. -/
abbrev GitAction : Type := GitState → GitState × Option Exc

/-- MAIN_BRANCH from util.py. -/
def MAIN_BRANCH : String := "main"

/-- Modelled from the spec: the designated rules branch name
(BARK_RULES_BRANCH), imported from the external gitbark package whose
source is not part of this repository.  The claims only compare it for
equality with branch names, so any fixed string is faithful. -/
def BARK_RULES_BRANCH : String := "bark_rules"

/-- Modelled from the spec: the configuration directory name (BARK_CONFIG)
from the external gitbark package. -/
def BARK_CONFIG : String := ".bark"

/-- Modelled from the spec: the rules-document file path (BARK_RULES)
relative to the repository root, from the external gitbark package. -/
def BARK_RULES : String := BARK_CONFIG ++ "/bark_rules.yaml"

/-- Modelled from the spec: the commit-rules file path (COMMIT_RULES)
relative to the repository root, from the external gitbark package. -/
def COMMIT_RULES : String := BARK_CONFIG ++ "/commit_rules.yaml"

/-- Repo.head: git rev-parse HEAD.  Resolves the active branch to its
commit; `none` means the command exits non-zero (unborn HEAD), in which
case the cmd wrapper with check enabled raises. -/
def headRef (s : GitState) : Option Nat := alookup s.refs s.active

/-- Repo.has_branch: git show-ref -q --heads, with check disabled, so it
never raises and reports existence via the exit code. -/
def has_branch (s : GitState) (branch : String) : Bool :=
  (alookup s.refs branch).isSome

/-- Repo.checkout: if the branch does not exist, create it (git checkout
--orphan leaves the new branch unborn with no ref; git checkout -b points
the new branch at the current head, or leaves it unborn when HEAD is
itself unborn); otherwise plain git checkout switches to it.  Every case
ends with the named branch active. -/
def checkout (s : GitState) (branch : String) (orphan : Bool) : GitState :=
  if ¬ has_branch s branch then
    if orphan then
      { s with active := branch }
    else
      match alookup s.refs s.active with
      | some c => { s with refs := (branch, c) :: s.refs, active := branch }
      | none => { s with active := branch }
  else
    { s with active := branch }

/-- Repo.commit: git commit -m msg --allow-empty.  The commit message and
extra options do not affect the modelled state; the effect is that the
active branch now points at a fresh commit id (creating the ref when the
branch was unborn). -/
def commit (s : GitState) : GitState :=
  { s with refs := aset s.refs s.active s.nextId, nextId := s.nextId + 1 }

/-- Repo.write_bark_file: ensure the config directory exists (directories
are implicit in the flat path map), write the content, and git add the
file, so both the working directory and the index hold the content. -/
def write_bark_file (s : GitState) (file content : String) : GitState :=
  { s with workdir := aset s.workdir file content,
           index := aset s.index file content }

/-- Stand-in for the external yaml safe_dump serialization (sort disabled,
insertion order preserved).  No claim depends on the concrete format. -/
def yaml_safe_dump (d : List (String × String)) : String :=
  String.join (d.map (fun p => p.1 ++ ": " ++ p.2 ++ "\n"))

/-- Repo.write_bark_rules: raises a generic Exception unless the active
branch is the designated rules branch; otherwise serializes the rules and
delegates to write_bark_file.  The raise happens before any write, so on
error the returned state is the input state. -/
def write_bark_rules (s : GitState) (bark_rules : List (String × String)) :
    GitState × Option Exc :=
  if s.active ≠ BARK_RULES_BRANCH then
    (s, some (.generic ("Bark Rules should be created in the " ++
      BARK_RULES_BRANCH ++ " branch!")))
  else
    (write_bark_file s (s.path ++ "/" ++ BARK_RULES)
      (yaml_safe_dump bark_rules), none)

/-- Repo.write_commit_rules: serialize and delegate to write_bark_file. -/
def write_commit_rules (s : GitState) (commit_rules : List (String × String)) :
    GitState :=
  write_bark_file s (s.path ++ "/" ++ COMMIT_RULES)
    (yaml_safe_dump commit_rules)

/-- Repo.on_branch: record the active branch, check out the requested
branch, run the block, and in a finally clause check out the recorded
branch again; the block exception, if any, propagates. -/
def on_branch (s : GitState) (branch : String) (orphan_branch : Bool)
    (block : GitAction) : GitState × Option Exc :=
  let curr_branch := s.active
  let r := block (checkout s branch orphan_branch)
  (checkout r.1 curr_branch false, r.2)

/-! ### The verification helper (util.py, verify_action and verify_rules) -/

/-- verify_action: record the head, run the action (under
pytest.raises(Exception) when failure is expected), record the head again
and assert it moved (passes) or stayed (not passes).  Reading the head
raises cmdFailure when HEAD is unborn; pytest.raises raises pytestFailed
when the action did not raise, and does not catch SystemExit (not an
Exception); a failed assert raises assertFailed. -/
def verify_action (repo : GitState) (passes : Bool) (action : GitAction) :
    GitState × Option Exc :=
  match headRef repo with
  | none => (repo, some .cmdFailure)
  | some curr_head =>
    if passes then
      match action repo with
      | (r, some e) => (r, some e)
      | (r, none) =>
        match headRef r with
        | none => (r, some .cmdFailure)
        | some post_head =>
          if curr_head ≠ post_head then (r, none) else (r, some .assertFailed)
    else
      match action repo with
      | (r, some e) =>
        if e.isException then
          match headRef r with
          | none => (r, some .cmdFailure)
          | some post_head =>
            if curr_head = post_head then (r, none) else (r, some .assertFailed)
        else (r, some e)
      | (r, none) => (r, some .pytestFailed)

/-- Python truthiness of an optional dict: None and the empty dict are
both falsy. -/
def truthy (d : Option (List (String × String))) : Bool :=
  match d with
  | none => false
  | some l => !l.isEmpty

/-- The block run on the rules branch in verify_rules: write the bark
rules, then commit; write_bark_rules may raise, aborting the block. -/
def barkRulesBlock (bark_rules : List (String × String)) : GitAction :=
  fun s =>
    match write_bark_rules s bark_rules with
    | (s₁, some e) => (s₁, some e)
    | (s₁, none) => (commit s₁, none)

/-- verify_rules: if commit rules are supplied (truthy), write and commit
them on the current branch; if bark rules are supplied (truthy), write
and commit them on the designated rules branch inside on_branch with the
orphan flag; then run verify_action. -/
def verify_rules (repo : GitState) (passes : Bool) (action : GitAction)
    (commit_rules bark_rules : Option (List (String × String))) :
    GitState × Option Exc :=
  let s₁ :=
    if truthy commit_rules then
      commit (write_commit_rules repo (commit_rules.getD []))
    else repo
  let r₂ :=
    if truthy bark_rules then
      on_branch s₁ BARK_RULES_BRANCH true (barkRulesBlock (bark_rules.getD []))
    else (s₁, none)
  match r₂ with
  | (s₂, some e) => (s₂, some e)
  | (s₂, none) => verify_action s₂ passes action

/-! ### Hook suppression scope (util.py, uninstall_hooks)

uninstall_hooks touches the real filesystem with permission bits, so it
is modelled over a path map carrying content and mode. -/

/-- A file on disk: its content and its permission mode bits. -/
structure FsFile where
  content : String
  mode : Nat
deriving DecidableEq

/-- The filesystem slice uninstall_hooks operates on: path to file. -/
abbrev FS : Type := List (String × FsFile)

/-- The reference-transaction hook path inside the repository. -/
def hooksPath (repoPath : String) : String :=
  repoPath ++ "/.git/hooks/reference-transaction"

/-- Mode bits of a file freshly created by opening for writing
(0o666 masked by the usual umask, i.e. 0o644). -/
def DEFAULT_MODE : Nat := 420

/-- stat.S_IXUSR (0o100). -/
def S_IXUSR : Nat := 64

/-- stat.S_IXGRP (0o10). -/
def S_IXGRP : Nat := 8

/-- stat.S_IXOTH (0o1). -/
def S_IXOTH : Nat := 1

/-- Opening a path for writing: truncate an existing file keeping its
mode, or create it with the default mode. -/
def fsWrite (fs : FS) (p c : String) : FS :=
  match alookup fs p with
  | some f => aset fs p ⟨c, f.mode⟩
  | none => aset fs p ⟨c, DEFAULT_MODE⟩

/-- os.chmod on an existing path (no effect on a missing one). -/
def fsChmod (fs : FS) (p : String) (m : Nat) : FS :=
  match alookup fs p with
  | some f => aset fs p ⟨f.content, m⟩
  | none => fs

/-- Python truthiness of an optional string: None and the empty string
are both falsy. -/
def truthyStr (o : Option String) : Bool :=
  match o with
  | none => false
  | some s => !s.isEmpty

/-- uninstall_hooks: on entry capture the hook content and delete the
file if it exists; run the block; in a finally clause, if the captured
content is truthy, rewrite the file and set the executable bits for
owner, group and other on top of its current mode. -/
def uninstall_hooks (repoPath : String) (fs : FS)
    (block : FS → FS × Option Exc) : FS × Option Exc :=
  let hook_path := hooksPath repoPath
  let hook_content : Option String :=
    (alookup fs hook_path).map (fun f => f.content)
  let fs₁ :=
    match alookup fs hook_path with
    | some _ => aerase fs hook_path
    | none => fs
  let r := block fs₁
  let fs₃ :=
    if truthyStr hook_content then
      let fsw := fsWrite r.1 hook_path (hook_content.getD "")
      let current_permissions :=
        ((alookup fsw hook_path).map (fun f => f.mode)).getD DEFAULT_MODE
      fsChmod fsw hook_path
        (current_permissions ||| (S_IXUSR ||| S_IXGRP ||| S_IXOTH))
    else r.1
  (fs₃, r.2)

/-! ### Snapshot dump and restore (util.py, Repo.dump and
Repo.restore_from_dump)

These are whole-directory copies; the relevant state is the pair of file
trees (repository directory, dump directory), each a map from relative
path to file bytes. -/

/-- A directory tree: relative path to file content. -/
abbrev Tree : Type := List (String × String)

/-- The two directories dump and restore move data between. -/
structure World where
  repoT : Tree
  dumpT : Tree
deriving DecidableEq

/-- shutil.copytree src into dst with dirs_exist_ok: files from src
overwrite same-path files in dst; dst files at other paths survive. -/
def copytreeMerge (dst src : Tree) : Tree :=
  src ++ dst.filter (fun p => alookup src p.1 = none)

/-- Repo.dump: copytree the repository directory onto the dump path,
merging into whatever is already there. -/
def dump (w : World) : World :=
  { w with dumpT := copytreeMerge w.dumpT w.repoT }

/-- Repo.restore_from_dump: rmtree the repository directory, then
copytree the dump into the now-absent path, so the repository tree
becomes exactly the dump tree. -/
def restore_from_dump (w : World) : World :=
  { w with repoT := w.dumpT }

/-! ### CLI invocation fixture (plugin.py, _bark_cli)

The click CliRunner invocation is external; its captured outcome is a
result record with an exit code and the exception that ended the run,
if any. -/

/-- The captured outcome of runner.invoke. -/
structure CliResult where
  exit_code : Int
  exception : Option Exc
deriving DecidableEq

/-- _bark_cli after the in-process run: on non-zero exit, a captured
exception that is an instance of CliFail (the cliFail constructor)
becomes raise SystemExit(); any other captured exception is re-raised
as-is; raising a missing exception is a TypeError; on zero exit the
result is returned. -/
def bark_cli_outcome (result : CliResult) : Except Exc CliResult :=
  if result.exit_code ≠ 0 then
    match result.exception with
    | some e => if e = .cliFail then .error .systemExit else .error e
    | none => .error .typeError
  else .ok result

/-! ### Concrete sample states used by the witness theorems -/

/-- A repository on branch main with one commit. -/
def sampleRepo : GitState :=
  { path := "/r", refs := [("main", 0)], active := "main",
    workdir := [], index := [], nextId := 1 }

/-- An action that raises a generic Exception and leaves the repository
untouched. -/
def raisingAction : GitAction := fun s => (s, some (.generic "boom"))

/-- An action that makes one commit and does not raise. -/
def committingAction : GitAction := fun s => (commit s, none)

/-- A filesystem holding a non-empty reference-transaction hook. -/
def sampleHookFs : FS := [(hooksPath "/r", ⟨"hb", 420⟩)]

/-- A block that leaves the filesystem alone and does not raise. -/
def idBlock : FS → FS × Option Exc := fun fs => (fs, none)

/-! ### Association-list lemmas -/

theorem alookup_aset_self {α : Type} (l : List (String × α)) (k : String)
    (v : α) : alookup (aset l k v) k = some v := by
  simp [aset, alookup]

theorem alookup_filter {α : Type} (l : List (String × α))
    (f : String × α → Bool) (k : String)
    (hf : ∀ v : α, f (k, v) = true) :
    alookup (l.filter f) k = alookup l k := by
  induction l with
  | nil => rfl
  | cons hd tl ih =>
    by_cases hk : hd.1 = k
    · have : f hd = true := by
        have := hf hd.2
        rw [← hk] at this
        simpa using this
      simp [List.filter, this, alookup, hk, ih]
    · cases hfv : f hd <;> simp [List.filter, hfv, alookup, hk, ih]

theorem alookup_aerase_self {α : Type} (l : List (String × α)) (k : String) :
    alookup (aerase l k) k = none := by
  induction l with
  | nil => rfl
  | cons hd tl ih =>
    by_cases hk : hd.1 = k
    · simp [aerase, List.filter, hk, alookup] at ih ⊢
      exact ih
    · simp [aerase, List.filter, hk, alookup] at ih ⊢
      simp [hk, ih]

theorem alookup_append {α : Type} (l₁ l₂ : List (String × α)) (k : String) :
    alookup (l₁ ++ l₂) k =
      match alookup l₁ k with
      | some v => some v
      | none => alookup l₂ k := by
  induction l₁ with
  | nil => rfl
  | cons hd tl ih =>
    by_cases hk : hd.1 = k <;> simp [alookup, hk, ih]

/-! ### Shared facts about the repository operations -/

/-- Every branch of checkout ends with the named branch active. -/
theorem checkout_active (s : GitState) (branch : String) (orphan : Bool) :
    (checkout s branch orphan).active = branch := by
  unfold checkout
  split
  · split
    · rfl
    · split <;> rfl
  · rfl

/-! ### Claim theorems -/

/-- C1: verify_action (to which verify_rules delegates) with passes set to
False succeeds only if the action raised an exception and the head
reference afterwards equals the head reference recorded before the action
was invoked; and when the action does not raise, the helper itself raises
the failed-expectation error of pytest.raises. -/
theorem verify_action_expected_failure (repo : GitState) (action : GitAction)
    (r : GitState) :
    (verify_action repo false action = (r, none) →
      ((action repo).2.isSome = true ∧ headRef r = headRef repo))
    ∧ ((action repo).2 = none → headRef repo ≠ none →
      verify_action repo false action = ((action repo).1, some .pytestFailed)) := by
  constructor
  · intro h
    cases hh : headRef repo with
    | none => simp [verify_action, hh] at h
    | some curr =>
      cases har : action repo with
      | mk r₁ oe =>
        cases oe with
        | none => simp [verify_action, hh, har] at h
        | some e =>
          cases hie : e.isException with
          | false => simp [verify_action, hh, har, hie] at h
          | true =>
            cases hhr : headRef r₁ with
            | none => simp [verify_action, hh, har, hie, hhr] at h
            | some post =>
              by_cases hcp : curr = post
              · have h1 : r₁ = r := by
                  simp [verify_action, hh, har, hie, hhr, hcp] at h
                  exact h
                subst h1
                simp [har, hhr, hh, hcp]
              · simp [verify_action, hh, har, hie, hhr, hcp] at h
  · intro hnone hne
    cases hh : headRef repo with
    | none => exact absurd hh hne
    | some curr =>
      cases har : action repo with
      | mk r₁ oe =>
        cases oe with
        | none => simp [verify_action, hh, har]
        | some e => rw [har] at hnone; simp at hnone

/-- C1 witness: a raising action satisfies the expectation and leaves the
head in place; a committing action that does not raise makes the helper
report the failed expectation. -/
theorem verify_action_expected_failure_witness :
    ((raisingAction sampleRepo).2.isSome = true
      ∧ headRef sampleRepo = headRef sampleRepo)
    ∧ verify_action sampleRepo false committingAction
        = ((committingAction sampleRepo).1, some .pytestFailed) :=
  ⟨(verify_action_expected_failure sampleRepo raisingAction sampleRepo).1
      (by decide),
   (verify_action_expected_failure sampleRepo committingAction sampleRepo).2
      (by decide) (by decide)⟩

/-- C2: verify_action (to which verify_rules delegates) with passes set to
True succeeds only if the action did not raise and the head reference
afterwards differs from the head reference recorded before the action;
and an exception raised by the action propagates to the caller as-is. -/
theorem verify_action_expected_success (repo : GitState) (action : GitAction)
    (r : GitState) :
    (verify_action repo true action = (r, none) →
      ((action repo).2 = none ∧ headRef r ≠ headRef repo))
    ∧ (∀ e, (action repo).2 = some e → headRef repo ≠ none →
      verify_action repo true action = ((action repo).1, some e)) := by
  constructor
  · intro h
    cases hh : headRef repo with
    | none => simp [verify_action, hh] at h
    | some curr =>
      cases har : action repo with
      | mk r₁ oe =>
        cases oe with
        | some e => simp [verify_action, hh, har] at h
        | none =>
          cases hhr : headRef r₁ with
          | none => simp [verify_action, hh, har, hhr] at h
          | some post =>
            by_cases hcp : curr = post
            · simp [verify_action, hh, har, hhr, hcp] at h
            · have h1 : r₁ = r := by
                simp [verify_action, hh, har, hhr, hcp] at h
                exact h
              subst h1
              refine ⟨by simp [har], ?_⟩
              intro hx
              exact hcp (Option.some.inj (hhr.symm.trans hx)).symm
  · intro e he hne
    cases hh : headRef repo with
    | none => exact absurd hh hne
    | some curr =>
      cases har : action repo with
      | mk r₁ oe =>
        rw [har] at he
        simp at he
        subst he
        simp [verify_action, hh, har]

/-- C2 witness: a committing action satisfies the expectation with a moved
head; a raising action has its exception propagated unchanged. -/
theorem verify_action_expected_success_witness :
    ((committingAction sampleRepo).2 = none
      ∧ headRef (commit sampleRepo) ≠ headRef sampleRepo)
    ∧ verify_action sampleRepo true raisingAction
        = ((raisingAction sampleRepo).1, some (.generic "boom")) :=
  ⟨(verify_action_expected_success sampleRepo committingAction
      (commit sampleRepo)).1 (by decide),
   (verify_action_expected_success sampleRepo raisingAction sampleRepo).2
      (.generic "boom") (by decide) (by decide)⟩

/-- C3: write_bark_rules on any state whose active branch is not the
designated rules branch raises a generic Exception and returns the input
state unchanged: in particular the working directory and the staged index
are untouched, so the rules file is not created. -/
theorem write_bark_rules_wrong_branch (s : GitState)
    (bark_rules : List (String × String))
    (h : s.active ≠ BARK_RULES_BRANCH) :
    (∃ msg, write_bark_rules s bark_rules = (s, some (Exc.generic msg)))
    ∧ (write_bark_rules s bark_rules).1.workdir = s.workdir
    ∧ (write_bark_rules s bark_rules).1.index = s.index := by
  have hmain : write_bark_rules s bark_rules =
      (s, some (.generic ("Bark Rules should be created in the " ++
        BARK_RULES_BRANCH ++ " branch!"))) := by
    simp [write_bark_rules, h]
  exact ⟨⟨_, hmain⟩, by rw [hmain], by rw [hmain]⟩

/-- C3 witness: the sample repository is on main, not the rules branch. -/
theorem write_bark_rules_wrong_branch_witness :
    (∃ msg, write_bark_rules sampleRepo [] = (sampleRepo, some (Exc.generic msg)))
    ∧ (write_bark_rules sampleRepo []).1.workdir = sampleRepo.workdir
    ∧ (write_bark_rules sampleRepo []).1.index = sampleRepo.index :=
  write_bark_rules_wrong_branch sampleRepo [] (by decide)

/-- C5: on_branch leaves the active branch equal to its pre-call value for
every state, branch name, orphan flag and block, whether or not the block
raises: the finally clause checks the recorded branch out again. -/
theorem on_branch_restores_active_branch (s : GitState) (branch : String)
    (orphan_branch : Bool) (block : GitAction) :
    (on_branch s branch orphan_branch block).1.active = s.active := by
  simp [on_branch, checkout_active]

/-- C7: checkout makes the named branch active in every case; an existing
branch is switched to with no other state change; a missing branch with
the orphan flag becomes active as an unborn orphan ref with no parent
history (refs unchanged until a commit); a missing branch without the
flag is created pointing at the current head commit. -/
theorem checkout_creates_or_switches (s : GitState) (branch : String)
    (orphan : Bool) :
    (checkout s branch orphan).active = branch
    ∧ (has_branch s branch = true →
        checkout s branch orphan = { s with active := branch })
    ∧ (has_branch s branch = false → orphan = true →
        checkout s branch orphan = { s with active := branch })
    ∧ (has_branch s branch = false → orphan = false →
        ∀ c, alookup s.refs s.active = some c →
          checkout s branch orphan =
            { s with refs := (branch, c) :: s.refs, active := branch }) := by
  refine ⟨checkout_active s branch orphan, ?_, ?_, ?_⟩
  · intro hb
    simp [checkout, hb]
  · intro hb ho
    subst ho
    simp [checkout, hb]
  · intro hb ho c hc
    subst ho
    simp [checkout, hb, hc]

/-- C7 witness: switching to the existing main branch, creating an orphan
branch, and creating a normal branch from the current head commit. -/
theorem checkout_creates_or_switches_witness :
    checkout sampleRepo "main" false = { sampleRepo with active := "main" }
    ∧ checkout sampleRepo "feat" true = { sampleRepo with active := "feat" }
    ∧ checkout sampleRepo "dev" false =
        { sampleRepo with refs := ("dev", 0) :: sampleRepo.refs,
                          active := "dev" } :=
  ⟨(checkout_creates_or_switches sampleRepo "main" false).2.1 (by decide),
   (checkout_creates_or_switches sampleRepo "feat" true).2.2.1 (by decide) rfl,
   (checkout_creates_or_switches sampleRepo "dev" false).2.2.2 (by decide) rfl
      0 (by decide)⟩

/-- C8: the CLI fixture converts a captured CliFail on non-zero exit into
SystemExit, re-raises any other captured exception as-is, and returns the
captured result on zero exit. -/
theorem bark_cli_outcome_spec (result : CliResult) :
    (result.exit_code ≠ 0 → result.exception = some .cliFail →
      bark_cli_outcome result = .error .systemExit)
    ∧ (result.exit_code ≠ 0 → ∀ e, e ≠ Exc.cliFail →
        result.exception = some e → bark_cli_outcome result = .error e)
    ∧ (result.exit_code = 0 → bark_cli_outcome result = .ok result) := by
  refine ⟨?_, ?_, ?_⟩
  · intro hz he
    simp [bark_cli_outcome, hz, he]
  · intro hz e hne he
    simp [bark_cli_outcome, hz, he, hne]
  · intro hz
    simp [bark_cli_outcome, hz]

/-- C8 witness: CliFail at exit code 1 becomes SystemExit, an
AssertionError at exit code 2 is re-raised as-is, and exit code 0 returns
the result. -/
theorem bark_cli_outcome_spec_witness :
    bark_cli_outcome ⟨1, some .cliFail⟩ = .error .systemExit
    ∧ bark_cli_outcome ⟨2, some .assertFailed⟩ = .error .assertFailed
    ∧ bark_cli_outcome ⟨0, none⟩ = .ok ⟨0, none⟩ :=
  ⟨(bark_cli_outcome_spec ⟨1, some .cliFail⟩).1 (by decide) rfl,
   (bark_cli_outcome_spec ⟨2, some .assertFailed⟩).2.1 (by decide)
      Exc.assertFailed (by decide) rfl,
   (bark_cli_outcome_spec ⟨0, none⟩).2.2 rfl⟩

/-- C9: verify_rules with an empty dict for commit_rules or for
bark_rules behaves exactly like passing None for that argument (the guard
is Python truthiness, and the empty dict is falsy), and with both absent
it goes directly to verify_action. -/
theorem verify_rules_empty_dict_like_none (repo : GitState) (passes : Bool)
    (action : GitAction) :
    (∀ br, verify_rules repo passes action (some []) br =
      verify_rules repo passes action none br)
    ∧ (∀ cr, verify_rules repo passes action cr (some []) =
      verify_rules repo passes action cr none)
    ∧ verify_rules repo passes action none none =
        verify_action repo passes action :=
  ⟨fun _ => rfl, fun _ => rfl, rfl⟩

/-- C10: checkout with the orphan flag on an already existing branch is a
plain switch: it coincides with checkout without the flag, leaves the
refs untouched (so no parentless orphan branch is produced), and only
changes the active branch. -/
theorem checkout_orphan_existing_branch (s : GitState) (branch : String)
    (h : has_branch s branch = true) :
    checkout s branch true = checkout s branch false
    ∧ (checkout s branch true).refs = s.refs
    ∧ checkout s branch true = { s with active := branch } := by
  refine ⟨?_, ?_, ?_⟩ <;> simp [checkout, h]

/-- After or-ing in the three executable permission flags, the executable
bit is set for owner (bit 6), group (bit 3) and other (bit 0). -/
theorem exec_bits_set (a : Nat) :
    (a ||| (S_IXUSR ||| S_IXGRP ||| S_IXOTH)).testBit 6 = true
    ∧ (a ||| (S_IXUSR ||| S_IXGRP ||| S_IXOTH)).testBit 3 = true
    ∧ (a ||| (S_IXUSR ||| S_IXGRP ||| S_IXOTH)).testBit 0 = true := by
  have h6 : (S_IXUSR ||| S_IXGRP ||| S_IXOTH).testBit 6 = true := by decide
  have h3 : (S_IXUSR ||| S_IXGRP ||| S_IXOTH).testBit 3 = true := by decide
  have h0 : (S_IXUSR ||| S_IXGRP ||| S_IXOTH).testBit 0 = true := by decide
  refine ⟨?_, ?_, ?_⟩
  · rw [Nat.testBit_lor, h6, Bool.or_true]
  · rw [Nat.testBit_lor, h3, Bool.or_true]
  · rw [Nat.testBit_lor, h0, Bool.or_true]

/-- C4 counterexample: a hook file that exists with empty content is not
restored when the scope exits, because the finally clause tests Python
truthiness of the captured content and the empty string is falsy; the
claim as stated promises restoration for a file present with any
content. -/
theorem uninstall_hooks_empty_content_not_restored :
    alookup (uninstall_hooks "/r" [(hooksPath "/r", ⟨"", 493⟩)] idBlock).1
      (hooksPath "/r") = none := by decide

/-- C4 (amended): for every initial filesystem in which the hook file is
present with non-empty content, and every wrapped block, the hook file is
absent at scope entry (the block runs on the filesystem with the hook
erased), the block outcome propagates, and after the scope exits the hook
file holds its original content with the executable permission bits set
for owner, group and other. -/
theorem uninstall_hooks_restores_nonempty (repoPath : String) (fs : FS)
    (block : FS → FS × Option Exc) (f : FsFile)
    (hf : alookup fs (hooksPath repoPath) = some f)
    (hne : f.content ≠ "") :
    alookup (aerase fs (hooksPath repoPath)) (hooksPath repoPath) = none
    ∧ (uninstall_hooks repoPath fs block).2 =
        (block (aerase fs (hooksPath repoPath))).2
    ∧ ∃ m, alookup (uninstall_hooks repoPath fs block).1 (hooksPath repoPath)
          = some ⟨f.content, m⟩
        ∧ m.testBit 6 = true ∧ m.testBit 3 = true ∧ m.testBit 0 = true := by
  have hth : truthyStr (some f.content) = true := by
    have hie : f.content.isEmpty = false := by
      cases h : f.content.isEmpty with
      | false => rfl
      | true => exact absurd ((String.isEmpty_iff f.content).mp h) hne
    simp [truthyStr, hie]
  refine ⟨alookup_aerase_self fs (hooksPath repoPath), ?_, ?_⟩
  · simp [uninstall_hooks, hf]
  · cases halr : alookup (block (aerase fs (hooksPath repoPath))).1
        (hooksPath repoPath) with
    | some g =>
      refine ⟨g.mode ||| (S_IXUSR ||| S_IXGRP ||| S_IXOTH), ?_,
        (exec_bits_set g.mode).1, (exec_bits_set g.mode).2.1,
        (exec_bits_set g.mode).2.2⟩
      simp [uninstall_hooks, hf, hth, fsWrite, fsChmod, halr, alookup_aset_self]
    | none =>
      refine ⟨DEFAULT_MODE ||| (S_IXUSR ||| S_IXGRP ||| S_IXOTH), ?_,
        (exec_bits_set DEFAULT_MODE).1, (exec_bits_set DEFAULT_MODE).2.1,
        (exec_bits_set DEFAULT_MODE).2.2⟩
      simp [uninstall_hooks, hf, hth, fsWrite, fsChmod, halr, alookup_aset_self]

/-- C4 witness: a non-empty hook under an uneventful block is erased
inside the scope and restored with executable bits afterwards. -/
theorem uninstall_hooks_restores_nonempty_witness :
    alookup (aerase sampleHookFs (hooksPath "/r")) (hooksPath "/r") = none
    ∧ (uninstall_hooks "/r" sampleHookFs idBlock).2 =
        (idBlock (aerase sampleHookFs (hooksPath "/r"))).2
    ∧ ∃ m, alookup (uninstall_hooks "/r" sampleHookFs idBlock).1
          (hooksPath "/r") = some ⟨"hb", m⟩
        ∧ m.testBit 6 = true ∧ m.testBit 3 = true ∧ m.testBit 0 = true :=
  uninstall_hooks_restores_nonempty "/r" sampleHookFs idBlock ⟨"hb", 420⟩
    (by decide) (by decide)

/-- C6 counterexample: dumping into a destination that already holds a
file absent from the repository and then restoring brings that stale file
into the repository directory, so the tree is not bit-identical to its
state at dump time; the claim as stated quantifies over every dump
destination. -/
theorem dump_then_restore_cex :
    alookup ((restore_from_dump (dump ⟨[("a", "x")], [("b", "y")]⟩)).repoT) "b"
      = some "y"
    ∧ alookup (World.mk [("a", "x")] [("b", "y")]).repoT "b" = none := by
  decide

/-- C6 (amended): after dump then restore_from_dump, the repository tree
holds, at every path, the file the repository held at dump time, falling
back to the pre-existing destination file at paths the repository did not
occupy; when the dump destination held no files (as the plugin fixture
guarantees by dumping into a freshly created directory) the repository
tree is bit-identical to its state at dump time; and restore_from_dump
removes the repository directory entirely, so the restored tree is the
dump content with no stale repository file surviving. -/
theorem dump_then_restore (w : World) :
    (∀ p, alookup ((restore_from_dump (dump w)).repoT) p =
      match alookup w.repoT p with
      | some v => some v
      | none => alookup w.dumpT p)
    ∧ ((∀ p, alookup w.dumpT p = none) →
      ∀ p, alookup ((restore_from_dump (dump w)).repoT) p = alookup w.repoT p)
    ∧ (∀ p, alookup w.dumpT p = none →
      alookup ((restore_from_dump w).repoT) p = none) := by
  have h1 : ∀ p, alookup ((restore_from_dump (dump w)).repoT) p =
      match alookup w.repoT p with
      | some v => some v
      | none => alookup w.dumpT p := by
    intro p
    show alookup (copytreeMerge w.dumpT w.repoT) p = _
    rw [copytreeMerge, alookup_append]
    cases hr : alookup w.repoT p with
    | some v => rfl
    | none =>
      exact alookup_filter w.dumpT _ p (fun v => by simp [hr])
  refine ⟨h1, ?_, ?_⟩
  · intro hd p
    rw [h1 p]
    cases hr : alookup w.repoT p with
    | some v => rfl
    | none => simpa using hd p
  · intro p hd
    exact hd

/-- C6 witness: with an empty dump destination the roundtrip preserves the
repository file, and restoring over a repository file absent from the
dump removes it. -/
theorem dump_then_restore_witness :
    alookup ((restore_from_dump (dump ⟨[("a", "x")], []⟩)).repoT) "a"
      = alookup (World.mk [("a", "x")] []).repoT "a"
    ∧ alookup ((restore_from_dump ⟨[("a", "x")], [("c", "z")]⟩).repoT) "a"
      = none :=
  ⟨(dump_then_restore ⟨[("a", "x")], []⟩).2.1 (fun _ => rfl) "a",
   (dump_then_restore ⟨[("a", "x")], [("c", "z")]⟩).2.2 "a" (by decide)⟩

/-- C10 witness: the main branch exists in the sample repository. -/
theorem checkout_orphan_existing_branch_witness :
    checkout sampleRepo "main" true = checkout sampleRepo "main" false
    ∧ (checkout sampleRepo "main" true).refs = sampleRepo.refs
    ∧ checkout sampleRepo "main" true = { sampleRepo with active := "main" } :=
  checkout_orphan_existing_branch sampleRepo "main" (by decide)

end PytestGitbark
